import Mathlib

/-!
Verification development for the boss-baby-mcp repository: a shallow
embedding of the three MCP domain accessors (resume, certificates,
northstar portfolio), the unified aggregator and the request dispatcher,
together with theorems settling the frozen claims about them.

Modelling conventions:
* Python strings are Lean `String`; the substring operator `in` is an
  infix test on the underlying character lists; `str.lower()` maps
  `Char.toLower` over the characters (ASCII data throughout the repository).
* Machine floats in the match score are modelled as exact rationals;
  `round(x, 2)` is round-half-to-even at two decimals.
* A loaded YAML document is `Doc α`: `pynone` models the Python value
  `None` (an empty YAML file parses to it), `emptyDict` models the empty
  mapping the loader substitutes on a missing file or a parse failure,
  and `full d` models any non-empty mapping, whose known paths are the
  fields of `d` (absent fields defaulting as the accessors default them).
* Wall-clock `timestamp` fields and logging calls are side effects
  outside the embedding and are omitted from the envelopes.
* Operations that can raise a Python exception return `Except PyErr _`;
  operations that cannot raise return their envelope directly.
-/

/-- Python `str.lower()` on one character (ASCII data throughout the repo). -/
def lowC (c : Char) : Char := c.toLower

/-- Python `str.lower()`. -/
def lowerS (s : String) : String := ⟨s.toList.map lowC⟩

/-- Bool test: `small` is a prefix of `big` (on character lists). -/
def listPref : List Char → List Char → Bool
  | [], _ => true
  | _ :: _, [] => false
  | a :: as, b :: bs => a = b && listPref as bs

/-- Bool test: `n` occurs as a contiguous infix of the second list. -/
def listInf (n : List Char) : List Char → Bool
  | [] => n.isEmpty
  | b :: bs => listPref n (b :: bs) || listInf n bs

/-- Python substring test `needle in hay` on strings. -/
def strIn (needle hay : String) : Bool :=
  listInf needle.toList hay.toList

instance [DecidableEq ε] [DecidableEq α] : DecidableEq (Except ε α) := fun x y =>
  match x, y with
  | .ok a, .ok b =>
    if h : a = b then isTrue (by rw [h]) else isFalse (by intro hh; cases hh; exact h rfl)
  | .error a, .error b =>
    if h : a = b then isTrue (by rw [h]) else isFalse (by intro hh; cases hh; exact h rfl)
  | .ok _, .error _ => isFalse (by intro hh; cases hh)
  | .error _, .ok _ => isFalse (by intro hh; cases hh)

/-- A Python scalar as it occurs in the YAML data and in request parameter
bags: an integer or a string. -/
inductive PyScalar where
  | i (n : Int)
  | s (v : String)
deriving DecidableEq

/-- Python `str(x)` / f-string rendering of a scalar. -/
def PyScalar.str : PyScalar → String
  | .i n => toString n
  | .s v => v

/-- F-string rendering of a possibly absent scalar; Python renders the value
`None` as the text None. -/
def strOfOptScalar : Option PyScalar → String
  | some v => v.str
  | none => "None"

/-- The states a loaded YAML document can be in.  `pynone` is the Python
value None, produced when an existing file parses to nothing (for example an
empty file); `emptyDict` is the empty mapping the loader substitutes on a
missing file or on a parse failure; `full d` is any non-empty mapping, with
the paths the accessors read given by the fields of `d` (a field left at its
default models an absent key, matching the defaults of the `.get` calls). -/
inductive Doc (α : Type) where
  | pynone
  | emptyDict
  | full (d : α)
deriving DecidableEq

/-- Python exceptions the embedded operations can raise. -/
inductive PyErr where
  | attributeError
  | valueError
  | typeError
deriving DecidableEq

/-- A generic string-to-string mapping used for record payloads whose fields
the code never inspects (repository info, shared assets, AI plan entries). -/
abbrev PyDict := List (String × String)

/-- Reading a field path off a document: Python raises AttributeError when
`.get` is called on None, and the chained `.get(key, default)` calls turn the
empty mapping into an all-defaults record. -/
def Doc.getData [Inhabited α] : Doc α → Except PyErr α
  | .pynone => .error .attributeError
  | .emptyDict => .ok default
  | .full d => .ok d

/-- Python truthiness of a loaded document: None and the empty mapping are
falsy. -/
def Doc.truthy : Doc α → Bool
  | .full _ => true
  | _ => false

/-- Models `doc or {}` as used by the profile aggregator. -/
def orDefault [Inhabited α] : Doc α → α
  | .full d => d
  | _ => default

/-! ### Certificates document records (certificates_mcp.py) -/

/-- One certificate record; only the fields the code reads are modelled.
`id` and `issuer` are optional because the code reads them both with and
without a `.get` default; the other fields are always read with default "". -/
structure Cert where
  id : Option String := none
  title : String := ""
  issuer : Option String := none
deriving DecidableEq, Inhabited

structure Diploma where
  title : String := ""
deriving DecidableEq, Inhabited

structure LangCert where
  title : String := ""
  language : String := ""
deriving DecidableEq, Inhabited

structure Badge where
  title : String := ""
  issuer : String := ""
deriving DecidableEq, Inhabited

structure CertsSub where
  coursera : List Cert := []
  other : List Cert := []
deriving DecidableEq, Inhabited

structure CertData where
  certificates : CertsSub := {}
  diplomas : List Diploma := []
  languages : List LangCert := []
  badges : List Badge := []
  repository_info : PyDict := []
deriving DecidableEq, Inhabited

/-- A generic success envelope carrying a sequence and its count. -/
structure ListEnv (α : Type) where
  data : List α
  count : Nat
deriving DecidableEq

/-- One search hit, tagged by the category it came from (the `type` key of
the Python result dict). -/
inductive CertHit where
  | coursera (c : Cert)
  | other (c : Cert)
  | diploma (d : Diploma)
  | language (l : LangCert)
  | badge (b : Badge)
deriving DecidableEq

inductive CertSearchEnv where
  | ok (query : String) (results : List CertHit) (count : Nat)
  | err (msg : String)
deriving DecidableEq

inductive ByIdEnv where
  | found (certificate : Cert)
  | notFound (msg : String)
deriving DecidableEq

structure IssuerEnv where
  issuer : String
  results : List CertHit
  count : Nat
deriving DecidableEq

/-! ### Certificates operations.  load_certificates performs file IO; its
possible outcomes are exactly the three `Doc` states (file parses to content:
`full`/`pynone`; missing file or parse failure: `emptyDict`). -/

/-- get_all_certificates returns the loaded data verbatim in a success
envelope (the envelope wrapper adds nothing, so the data itself is the
model). -/
def get_all_certificates (certificates_data : Doc CertData) : Doc CertData :=
  certificates_data

def get_coursera_certificates (cd : Doc CertData) : Except PyErr (ListEnv Cert) := do
  let d ← cd.getData
  let coursera_certs := d.certificates.coursera
  return ⟨coursera_certs, coursera_certs.length⟩

def get_diplomas (cd : Doc CertData) : Except PyErr (ListEnv Diploma) := do
  let d ← cd.getData
  return ⟨d.diplomas, d.diplomas.length⟩

def get_language_certificates (cd : Doc CertData) : Except PyErr (ListEnv LangCert) := do
  let d ← cd.getData
  return ⟨d.languages, d.languages.length⟩

def get_badges (cd : Doc CertData) : Except PyErr (ListEnv Badge) := do
  let d ← cd.getData
  return ⟨d.badges, d.badges.length⟩

def get_repository_info (cd : Doc CertData) : Except PyErr PyDict := do
  let d ← cd.getData
  return d.repository_info

def courseraHits (query_lower : String) (l : List Cert) : List CertHit :=
  (l.filter (fun cert =>
      strIn query_lower (lowerS cert.title) ||
      strIn query_lower (lowerS (cert.issuer.getD "")) ||
      strIn query_lower (lowerS (cert.id.getD "")))).map CertHit.coursera

def otherHits (query_lower : String) (l : List Cert) : List CertHit :=
  (l.filter (fun cert =>
      strIn query_lower (lowerS cert.title) ||
      strIn query_lower (lowerS (cert.issuer.getD "")))).map CertHit.other

def diplomaHits (query_lower : String) (l : List Diploma) : List CertHit :=
  (l.filter (fun diploma => strIn query_lower (lowerS diploma.title))).map CertHit.diploma

def languageHits (query_lower : String) (l : List LangCert) : List CertHit :=
  (l.filter (fun lang =>
      strIn query_lower (lowerS lang.title) ||
      strIn query_lower (lowerS lang.language))).map CertHit.language

def badgeHits (query_lower : String) (l : List Badge) : List CertHit :=
  (l.filter (fun badge =>
      strIn query_lower (lowerS badge.title) ||
      strIn query_lower (lowerS badge.issuer))).map CertHit.badge

/-- search_certificates: guarded by document truthiness, then one pass per
category appending tagged hits in original order. -/
def search_certificates (cd : Doc CertData) (query : String) : CertSearchEnv :=
  match cd with
  | .full d =>
    let query_lower := lowerS query
    let results :=
      courseraHits query_lower d.certificates.coursera ++
      otherHits query_lower d.certificates.other ++
      diplomaHits query_lower d.diplomas ++
      languageHits query_lower d.languages ++
      badgeHits query_lower d.badges
    .ok query results results.length
  | _ => .err "No certificate data available"

/-- Python equality `cert.get("id") == cert_id` between a possibly absent
string field and the request scalar: None never equals, types must agree. -/
def certIdEq : Option String → PyScalar → Bool
  | some v, .s x => v = x
  | _, _ => false

/-- The linear scan of get_certificate_by_id. -/
def findById (cert_id : PyScalar) : List Cert → ByIdEnv
  | [] => .notFound ("Certificate with ID " ++ cert_id.str ++ " not found")
  | cert :: rest =>
    if certIdEq cert.id cert_id then .found cert else findById cert_id rest

def get_certificate_by_id (cd : Doc CertData) (cert_id : PyScalar) :
    Except PyErr ByIdEnv := do
  let d ← cd.getData
  return findById cert_id d.certificates.coursera

def get_certificates_by_issuer (cd : Doc CertData) (issuer : String) :
    Except PyErr IssuerEnv := do
  let d ← cd.getData
  let issuer_lower := lowerS issuer
  let results :=
    (d.certificates.coursera.filter
        (fun cert => strIn issuer_lower (lowerS (cert.issuer.getD "")))).map CertHit.coursera ++
    (d.certificates.other.filter
        (fun cert => strIn issuer_lower (lowerS (cert.issuer.getD "")))).map CertHit.other ++
    (d.badges.filter (fun badge => strIn issuer_lower (lowerS badge.issuer))).map CertHit.badge
  return ⟨issuer, results, results.length⟩

/-! ### Resume document and match scoring (resume_mcp_v2.py) -/

structure ExpRec where
  title : String := ""
  company : String := ""
  duration : String := ""
  description : String := ""
deriving DecidableEq, Inhabited

structure ResProj where
  name : String := ""
  tech : List String := []
  description : String := ""
deriving DecidableEq, Inhabited

structure ResumeData where
  personal_info : PyDict := []
  summary : String := ""
  skills : List String := []
  experience : List ExpRec := []
  projects : List ResProj := []
deriving DecidableEq, Inhabited

/-- Round a rational to the nearest integer, halves to the even neighbour,
as Python round does. -/
def roundHalfEven (q : ℚ) : ℤ :=
  let f := ⌊q⌋
  let r := q - (f : ℚ)
  if r < 1 / 2 then f
  else if 1 / 2 < r then f + 1
  else if f % 2 = 0 then f else f + 1

/-- Python `round(x, 2)`: round-half-even at two decimal places.  Float
values are modelled as exact rationals. -/
def round2 (q : ℚ) : ℚ := (roundHalfEven (q * 100) : ℚ) / 100

inductive MatchEnv where
  | ok (match_score skill_match_percentage : ℚ)
      (positive_keywords_found negative_keywords_found : Nat)
      (skills_matched total_skills : Nat)
  | err (msg : String)
deriving DecidableEq

def positive_keywords : List String :=
  ["open source", "etl", "ai", "marketing", "dashboard", "python", "machine learning"]

def negative_keywords : List String :=
  ["enterprise", "terraform", "snowflake", "legacy"]

/-- get_resume returns the loaded data verbatim in a success envelope. -/
def get_resume (resume_data : Doc ResumeData) : Doc ResumeData :=
  resume_data

/-- get_match_score: ATS-style match score of the loaded resume against a
free-text job description.  The unused local resume_text of the source is
omitted; floats are exact rationals. -/
def get_match_score (resume_data : Doc ResumeData) (job_description : String) :
    MatchEnv :=
  match resume_data with
  | .full d =>
    let resume_skills := d.skills
    let job_text := lowerS job_description
    let positive_score := (positive_keywords.filter (fun keyword => strIn keyword job_text)).length
    let negative_score := (negative_keywords.filter (fun keyword => strIn keyword job_text)).length
    let skill_matches := (resume_skills.filter (fun skill => strIn (lowerS skill) job_text)).length
    let skill_match_percentage : ℚ :=
      if resume_skills.isEmpty then 0
      else ((skill_matches : ℚ) / (resume_skills.length : ℚ)) * 100
    let base_score := skill_match_percentage
    let positive_bonus : ℚ := (positive_score : ℚ) * 10
    let negative_penalty : ℚ := (negative_score : ℚ) * 15
    let final_score := min 100 (max 0 (base_score + positive_bonus - negative_penalty))
    .ok (round2 final_score) (round2 skill_match_percentage)
      positive_score negative_score skill_matches resume_skills.length
  | _ => .err "No resume data available"

/-! ### Northstar portfolio document (northstar_mcp.py) -/

/-- One project record; `id` is kept optional and scalar-typed because the
code renders it into strings and compares it with ints without any schema
check. -/
structure Proj where
  id : Option PyScalar := none
  name : String := ""
  purpose : String := ""
  mcp_role : String := ""
  stack : List String := []
  deliverables : List String := []
  stretch : List String := []
deriving DecidableEq, Inhabited

structure Suite where
  brand : Option String := none
  mission : Option String := none
  total_projects : Option Int := none
  projects : List Proj := []
  shared_assets : List PyDict := []
  ai_agent_plan : List PyDict := []
deriving DecidableEq, Inhabited

structure NorthData where
  northstar_suite : Suite := {}
deriving DecidableEq, Inhabited

inductive NProjEnv where
  | found (p : Proj)
  | notFound (msg : String)
deriving DecidableEq

inductive NSearchEnv where
  | ok (query : String) (results : List Proj) (count : Nat)
  | err (msg : String)
deriving DecidableEq

structure StackEntry where
  name : String
  stack : List String
  mcp_role : String
deriving DecidableEq

structure StackEnv where
  by_project : List (String × StackEntry)
  unique_technologies : List String
  total_projects : Nat
deriving DecidableEq

structure REntry where
  id : Option PyScalar
  name : String
  purpose : String
  mcp_role : String
  stack : List String
  deliverables : List String
  stretch_goals : List String
deriving DecidableEq

structure InteropEntry where
  project1 : String
  project2 : String
  shared_assets : List PyDict
  connection_type : String
deriving DecidableEq

structure InteropEnv where
  matrix : List (String × InteropEntry)
  shared_assets : List PyDict
  total_connections : Nat
deriving DecidableEq

/-- Insertion into a Python dict modelled as an insertion-ordered
association list: an existing key keeps its position and gets the new value,
a new key is appended. -/
def dictInsert (k : String) (v : α) : List (String × α) → List (String × α)
  | [] => [(k, v)]
  | (k0, v0) :: rest => if k0 = k then (k, v) :: rest else (k0, v0) :: dictInsert k v rest

def get_northstar_suite (northstar_data : Doc NorthData) : Doc NorthData :=
  northstar_data

def get_projects (nd : Doc NorthData) : Except PyErr (ListEnv Proj) := do
  let d ← nd.getData
  let projects := d.northstar_suite.projects
  return ⟨projects, projects.length⟩

/-- Python equality `project.get("id") == project_id` against an int. -/
def projIdEq : Option PyScalar → Int → Bool
  | some (.i n), m => n = m
  | _, _ => false

def findProj (project_id : Int) : List Proj → NProjEnv
  | [] => .notFound ("Project with ID " ++ toString project_id ++ " not found")
  | p :: rest => if projIdEq p.id project_id then .found p else findProj project_id rest

def get_project_by_id (nd : Doc NorthData) (project_id : Int) :
    Except PyErr NProjEnv := do
  let d ← nd.getData
  return findProj project_id d.northstar_suite.projects

def get_shared_assets (nd : Doc NorthData) : Except PyErr (ListEnv PyDict) := do
  let d ← nd.getData
  let assets := d.northstar_suite.shared_assets
  return ⟨assets, assets.length⟩

def get_ai_agent_plan (nd : Doc NorthData) : Except PyErr (List PyDict) := do
  let d ← nd.getData
  return d.northstar_suite.ai_agent_plan

/-- The f-string key `project_<id>` of the stack summary. -/
def projKey (p : Proj) : String := "project_" ++ strOfOptScalar p.id

/-- Ascending insertion of a string into a sorted list. -/
def insertAsc (x : String) : List String → List String
  | [] => [x]
  | y :: ys => if x ≤ y then x :: y :: ys else y :: insertAsc x ys

/-- Python `sorted(...)` on strings. -/
def sortAsc : List String → List String
  | [] => []
  | x :: xs => insertAsc x (sortAsc xs)

/-- get_stack_summary.  The Python set of technologies is modelled as a
deduplicated list; since the result is sorted, the unspecified iteration
order of the set does not show. -/
def get_stack_summary (nd : Doc NorthData) : Except PyErr StackEnv := do
  let d ← nd.getData
  let projects := d.northstar_suite.projects
  let stack_summary := projects.foldl
    (fun m p => dictInsert (projKey p) ⟨p.name, p.stack, p.mcp_role⟩ m) []
  let all_techs := ((stack_summary.map (fun kv => kv.2.stack)).flatten).dedup
  return ⟨stack_summary, sortAsc all_techs, projects.length⟩

def get_project_roadmap (nd : Doc NorthData) : Except PyErr (List REntry) := do
  let d ← nd.getData
  return d.northstar_suite.projects.map (fun p =>
    ⟨p.id, p.name, p.purpose, p.mcp_role, p.stack, p.deliverables, p.stretch⟩)

/-- The text `" ".join([name, purpose, " ".join(stack), mcp_role])`. -/
def searchableText (p : Proj) : String :=
  String.intercalate " " [p.name, p.purpose, String.intercalate " " p.stack, p.mcp_role]

def projMatches (query_lower : String) (p : Proj) : Bool :=
  strIn query_lower (lowerS (searchableText p))

/-- The incremental relevance score of search_projects. -/
def scoreOf (query_lower : String) (p : Proj) : Nat :=
  let score := 0
  let score := if strIn query_lower (lowerS p.name) then score + 10 else score
  let score := if strIn query_lower (lowerS p.purpose) then score + 5 else score
  let score := if p.stack.any (fun tech => strIn query_lower (lowerS tech)) then score + 3 else score
  let score := if strIn query_lower (lowerS p.mcp_role) then score + 7 else score
  score

/-- Stable descending insertion: the new element goes after every earlier
element of greater-or-equal score. -/
def insertDesc (x : Proj × Nat) : List (Proj × Nat) → List (Proj × Nat)
  | [] => [x]
  | y :: ys => if y.2 ≤ x.2 then x :: y :: ys else y :: insertDesc x ys

/-- Python `list.sort(key=score, reverse=True)` is a stable descending sort;
this insertion sort realises exactly that order. -/
def sortDesc : List (Proj × Nat) → List (Proj × Nat)
  | [] => []
  | x :: xs => insertDesc x (sortDesc xs)

/-- search_projects: filter by substring match over the joined searchable
text, score each match, sort stably by descending score, return the bare
projects. -/
def search_projects (nd : Doc NorthData) (query : String) : NSearchEnv :=
  match nd with
  | .full d =>
    let query_lower := lowerS query
    let projects := d.northstar_suite.projects
    let results := (projects.filter (projMatches query_lower)).map
      (fun p => (p, scoreOf query_lower p))
    let sorted := sortDesc results
    .ok query (sorted.map Prod.fst) sorted.length
  | _ => .err "No Northstar data available"

/-- The f-string key of one interop matrix cell. -/
def interopKey (p1 p2 : Proj) : String :=
  strOfOptScalar p1.id ++ "-" ++ strOfOptScalar p2.id

/-- The upper-triangle cells of the interop matrix in generation order
(outer index i, inner index j, kept when i is at most j). -/
def pairEntries (projects : List Proj) (shared_assets : List PyDict) :
    List (String × InteropEntry) :=
  projects.enum.flatMap (fun ip1 =>
    projects.enum.filterMap (fun ip2 =>
      if ip1.1 ≤ ip2.1 then
        some (interopKey ip1.2 ip2.2,
          ⟨ip1.2.name, ip2.2.name, shared_assets,
            if ip1.1 = ip2.1 then "direct" else "via_shared_assets"⟩)
      else none))

/-- get_interop_matrix: the cells are written into a dict, so a repeated key
overwrites the earlier cell in place. -/
def get_interop_matrix (nd : Doc NorthData) : Except PyErr InteropEnv := do
  let d ← nd.getData
  let projects := d.northstar_suite.projects
  let shared_assets := d.northstar_suite.shared_assets
  let interop_matrix := (pairEntries projects shared_assets).foldl
    (fun m kv => dictInsert kv.1 kv.2 m) []
  return ⟨interop_matrix, shared_assets, interop_matrix.length⟩

/-! ### Unified aggregator (unified_mcp.py) -/

/-- The three loaded documents held by the unified server. -/
structure St where
  resume : Doc ResumeData
  certs : Doc CertData
  north : Doc NorthData
deriving DecidableEq

structure AllEnv where
  resume : Doc ResumeData
  certificates : Doc CertData
  northstar : Doc NorthData
deriving DecidableEq

/-- get_all_data exposes every loaded document verbatim under its own key. -/
def get_all_data (st : St) : AllEnv :=
  ⟨st.resume, st.certs, st.north⟩

structure NSProfile where
  brand : Option String
  total_projects : Option Int
  mission : Option String
  projects_count : Nat
  shared_assets_count : Nat
  projects : List (Option PyScalar × String × String)
deriving DecidableEq

structure ProfileEnv where
  personal_info : PyDict
  summary : String
  skills : List String
  experience_count : Nat
  project_count : Nat
  education_diplomas : List Diploma
  education_languages : List LangCert
  coursera_count : Nat
  issuers : List (String × Nat)
  badges : List Badge
  repository_info : PyDict
  northstar_suite : NSProfile
deriving DecidableEq

/-- The fixed keyword-to-skill rules applied to Coursera certificate titles.
The Python code accumulates them into a set; the set is modelled as the
first-occurrence deduplicated list of the additions. -/
def certSkillsOf (coursera_certs : List Cert) : List String :=
  (coursera_certs.foldl (fun acc cert =>
    let title := lowerS cert.title
    let acc := if strIn "python" title then acc ++ ["Python"] else acc
    let acc := if strIn "machine learning" title || strIn "ml" title then acc ++ ["Machine Learning"] else acc
    let acc := if strIn "data" title then acc ++ ["Data Analysis"] else acc
    let acc := if strIn "sql" title then acc ++ ["SQL"] else acc
    let acc := if strIn "ai" title || strIn "genai" title then acc ++ ["AI/GenAI"] else acc
    acc) []).dedup

/-- get_profile_summary.  The local name `projects` is bound first to the
resume projects and then rebound to the northstar projects, exactly as in
the source, so project_count counts northstar projects.  Python set union
is modelled as first-occurrence deduplication. -/
def get_profile_summary (st : St) : ProfileEnv :=
  let resume_data := orDefault st.resume
  let personal_info := resume_data.personal_info
  let skills := resume_data.skills
  let experience := resume_data.experience
  let cert_data := orDefault st.certs
  let coursera_certs := cert_data.certificates.coursera
  let diplomas := cert_data.diplomas
  let languages := cert_data.languages
  let badges := cert_data.badges
  let northstar_data := orDefault st.north
  let northstar_suite := northstar_data.northstar_suite
  let projects := northstar_suite.projects
  let shared_assets := northstar_suite.shared_assets
  let issuer_counts := coursera_certs.foldl (fun m cert =>
    let issuer := cert.issuer.getD "Unknown"
    dictInsert issuer ((m.lookup issuer).getD 0 + 1) m) []
  let cert_skills := certSkillsOf coursera_certs
  let all_skills := (skills ++ cert_skills).dedup
  ⟨personal_info, resume_data.summary, all_skills, experience.length, projects.length,
    diplomas, languages, coursera_certs.length, issuer_counts, badges,
    cert_data.repository_info,
    ⟨northstar_suite.brand, northstar_suite.total_projects, northstar_suite.mission,
      projects.length, shared_assets.length,
      projects.map (fun p => (p.id, p.name, p.mcp_role))⟩⟩

def jStr (s : String) : String := "\"" ++ s ++ "\""

def jArr (xs : List String) : String := "[" ++ String.intercalate ", " xs ++ "]"

def jObj (fields : List (String × String)) : String :=
  "\x7b" ++ String.intercalate ", " (fields.map (fun kv => jStr kv.1 ++ ": " ++ kv.2)) ++ "\x7d"

def dumpsExp (e : ExpRec) : String :=
  jObj [("title", jStr e.title), ("company", jStr e.company),
    ("duration", jStr e.duration), ("description", jStr e.description)]

def dumpsResProj (p : ResProj) : String :=
  jObj [("name", jStr p.name), ("tech", jArr (p.tech.map jStr)),
    ("description", jStr p.description)]

/-- `json.dumps` of the loaded resume document: None serialises to null, the
empty mapping to an empty object, content to a JSON object whose key order
follows the model fields.  JSON character escaping is not modelled (no data
here needs it). -/
def dumpsResume : Doc ResumeData → String
  | .pynone => "null"
  | .emptyDict => "\x7b\x7d"
  | .full r =>
    jObj [("personal_info", jObj (r.personal_info.map (fun kv => (kv.1, jStr kv.2)))),
      ("summary", jStr r.summary),
      ("skills", jArr (r.skills.map jStr)),
      ("experience", jArr (r.experience.map dumpsExp)),
      ("projects", jArr (r.projects.map dumpsResProj))]

/-- One entry of the cross-document search result, tagged by category. -/
inductive URes where
  | resumeMatched
  | certHit (h : CertHit)
  | northstar (p : Proj)
deriving DecidableEq

structure SearchAllEnv where
  query : String
  results : List URes
  count : Nat
deriving DecidableEq

/-- The `.get("results", [])` read of the certificate search envelope: an
error envelope has no results key, so it contributes the default. -/
def CertSearchEnv.resultsOrEmpty : CertSearchEnv → List CertHit
  | .ok _ rs _ => rs
  | .err _ => []

/-- The `.get("results", [])` read of the project search envelope. -/
def NSearchEnv.resultsOrEmpty : NSearchEnv → List Proj
  | .ok _ rs _ => rs
  | .err _ => []

/-- search_all: resume substring flag, then certificate hits, then the
projects exactly as search_projects returned them. -/
def search_all (st : St) (query : String) : SearchAllEnv :=
  let resume_text := lowerS (dumpsResume st.resume)
  let resume_matches := if strIn (lowerS query) resume_text then [URes.resumeMatched] else []
  let cert_matches := (search_certificates st.certs query).resultsOrEmpty
  let northstar_matches := (search_projects st.north query).resultsOrEmpty
  let all_results :=
    resume_matches ++ cert_matches.map URes.certHit ++ northstar_matches.map URes.northstar
  ⟨query, all_results, all_results.length⟩

/-! ### Dispatcher (UnifiedMCPServer.handle_request) -/

/-- The sum of the envelope shapes the dispatcher can return; `errMsg` is
the bare error envelope used for unknown endpoints and missing
parameters. -/
inductive Res where
  | errMsg (msg : String)
  | resumeE (e : Doc ResumeData)
  | matchE (e : MatchEnv)
  | certAll (e : Doc CertData)
  | certList (e : ListEnv Cert)
  | diplomaList (e : ListEnv Diploma)
  | langList (e : ListEnv LangCert)
  | badgeList (e : ListEnv Badge)
  | repo (e : PyDict)
  | certSearch (e : CertSearchEnv)
  | certById (e : ByIdEnv)
  | certByIssuer (e : IssuerEnv)
  | nsSuite (e : Doc NorthData)
  | projList (e : ListEnv Proj)
  | nsProject (e : NProjEnv)
  | assets (e : ListEnv PyDict)
  | aiPlan (e : List PyDict)
  | stackE (e : StackEnv)
  | roadmap (e : List REntry)
  | nsSearch (e : NSearchEnv)
  | interop (e : InteropEnv)
  | allData (e : AllEnv)
  | profile (e : ProfileEnv)
  | searchAllE (e : SearchAllEnv)
deriving DecidableEq

/-- Reading a key from the optional parameter bag.  `none` results exactly
when Python takes the `not data or key not in data` branch (data is None,
the empty dict, or lacks the key). -/
def bagGet (data : Option (List (String × PyScalar))) (k : String) : Option PyScalar :=
  match data with
  | none => none
  | some l => l.lookup k

/-- Python `int(x)` on a request scalar: ints pass through, strings parse as
an optional sign followed by digits, anything else raises ValueError. -/
def parseNatDigits (l : List Char) : Option Nat :=
  if l.isEmpty then none
  else if l.all Char.isDigit then
    some (l.foldl (fun acc c => acc * 10 + (c.toNat - 48)) 0)
  else none

def pyInt : PyScalar → Except PyErr Int
  | .i n => .ok n
  | .s v =>
    match v.toList with
    | [] => .error .valueError
    | c :: cs =>
      if c = Char.ofNat 45 then
        match parseNatDigits cs with
        | some n => .ok (-(n : Int))
        | none => .error .valueError
      else
        match parseNatDigits (c :: cs) with
        | some n => .ok (n : Int)
        | none => .error .valueError

/-- handle_request of the unified server.  Type errors raised inside a
callee on a wrongly typed argument (slicing or lower-casing a non-string)
are surfaced at the branch that passes the argument. -/
def handle_request (st : St) (endpoint : String)
    (data : Option (List (String × PyScalar))) : Except PyErr Res :=
  if endpoint = "/resume" then .ok (.resumeE (get_resume st.resume))
  else if endpoint = "/match" then
    match bagGet data "job_description" with
    | none => .ok (.errMsg "job_description required")
    | some (.s jd) => .ok (.matchE (get_match_score st.resume jd))
    | some (.i _) => .error .typeError
  else if endpoint = "/certificates" then .ok (.certAll (get_all_certificates st.certs))
  else if endpoint = "/certificates/coursera" then
    (get_coursera_certificates st.certs).map .certList
  else if endpoint = "/certificates/diplomas" then
    (get_diplomas st.certs).map .diplomaList
  else if endpoint = "/certificates/languages" then
    (get_language_certificates st.certs).map .langList
  else if endpoint = "/certificates/badges" then
    (get_badges st.certs).map .badgeList
  else if endpoint = "/certificates/repo" then
    (get_repository_info st.certs).map .repo
  else if endpoint = "/certificates/search" then
    match bagGet data "query" with
    | none => .ok (.errMsg "query required")
    | some (.s q) => .ok (.certSearch (search_certificates st.certs q))
    | some (.i _) => .error .attributeError
  else if endpoint = "/certificates/id" then
    match bagGet data "id" with
    | none => .ok (.errMsg "id required")
    | some v => (get_certificate_by_id st.certs v).map .certById
  else if endpoint = "/certificates/issuer" then
    match bagGet data "issuer" with
    | none => .ok (.errMsg "issuer required")
    | some (.s iss) => (get_certificates_by_issuer st.certs iss).map .certByIssuer
    | some (.i _) => .error .attributeError
  else if endpoint = "/northstar" then .ok (.nsSuite (get_northstar_suite st.north))
  else if endpoint = "/northstar/projects" then
    (get_projects st.north).map .projList
  else if endpoint = "/northstar/project" then
    match bagGet data "id" with
    | none => .ok (.errMsg "project id required")
    | some v => do
      let n ← pyInt v
      (get_project_by_id st.north n).map Res.nsProject
  else if endpoint = "/northstar/assets" then
    (get_shared_assets st.north).map .assets
  else if endpoint = "/northstar/ai-plan" then
    (get_ai_agent_plan st.north).map .aiPlan
  else if endpoint = "/northstar/stack" then
    (get_stack_summary st.north).map .stackE
  else if endpoint = "/northstar/roadmap" then
    (get_project_roadmap st.north).map .roadmap
  else if endpoint = "/northstar/search" then
    match bagGet data "query" with
    | none => .ok (.errMsg "query required")
    | some (.s q) => .ok (.nsSearch (search_projects st.north q))
    | some (.i _) => .error .attributeError
  else if endpoint = "/northstar/interop" then
    (get_interop_matrix st.north).map .interop
  else if endpoint = "/all" then .ok (.allData (get_all_data st))
  else if endpoint = "/profile" then .ok (.profile (get_profile_summary st))
  else if endpoint = "/search" then
    match bagGet data "query" with
    | none => .ok (.errMsg "query required")
    | some (.s q) => .ok (.searchAllE (search_all st q))
    | some (.i _) => .error .attributeError
  else .ok (.errMsg "Unknown endpoint")

/-- The flat namespace of endpoints the dispatcher knows. -/
def knownEndpoints : List String :=
  ["/resume", "/match", "/certificates", "/certificates/coursera",
    "/certificates/diplomas", "/certificates/languages", "/certificates/badges",
    "/certificates/repo", "/certificates/search", "/certificates/id",
    "/certificates/issuer", "/northstar", "/northstar/projects",
    "/northstar/project", "/northstar/assets", "/northstar/ai-plan",
    "/northstar/stack", "/northstar/roadmap", "/northstar/search",
    "/northstar/interop", "/all", "/profile", "/search"]

/-- One request step with the document state threaded explicitly: the read
methods contain no assignment to the loaded documents, so the state comes
back unchanged. -/
def runReq (st : St) (endpoint : String)
    (data : Option (List (String × PyScalar))) : Except PyErr Res × St :=
  (handle_request st endpoint data, st)

/-! ### Spec-side definitions.  These follow the wording of the
specification and are compared with the code-side definitions above in the
claim theorems. -/

/-- Spec wording: `clamp(x, 0, 100)`. -/
def clampQ (x : ℚ) : ℚ := max 0 (min 100 x)

/-- Spec wording: count of fixed positive keywords found as substrings of
the lowercased job text. -/
def posHits (job_description : String) : Nat :=
  (positive_keywords.filter (fun keyword => strIn keyword (lowerS job_description))).length

/-- Spec wording: count of fixed negative keywords found the same way. -/
def negHits (job_description : String) : Nat :=
  (negative_keywords.filter (fun keyword => strIn keyword (lowerS job_description))).length

/-- Count of resume skills whose lowercase form is a substring of the
lowercased job text. -/
def skillsMatched (skills : List String) (job_description : String) : Nat :=
  (skills.filter (fun skill => strIn (lowerS skill) (lowerS job_description))).length

/-- Spec wording: `100 * matched / len(skills)`, or 0 if skills is empty. -/
def specSkillPct (skills : List String) (job_description : String) : ℚ :=
  if skills.length = 0 then 0
  else 100 * (skillsMatched skills job_description : ℚ) / (skills.length : ℚ)

/-- Spec wording of the relevance score: a sum of weighted field-hit
indicators. -/
def specScore (query_lower : String) (p : Proj) : Nat :=
  (if strIn query_lower (lowerS p.name) then 10 else 0) +
  (if strIn query_lower (lowerS p.purpose) then 5 else 0) +
  (if p.stack.any (fun tech => strIn query_lower (lowerS tech)) then 3 else 0) +
  (if strIn query_lower (lowerS p.mcp_role) then 7 else 0)

/-- Insertion with respect to the strict order: higher score first, and on
equal scores the smaller original index first. -/
def lexInsert (a : (Proj × Nat) × Nat) :
    List ((Proj × Nat) × Nat) → List ((Proj × Nat) × Nat)
  | [] => [a]
  | b :: bs =>
    if b.1.2 < a.1.2 ∨ (a.1.2 = b.1.2 ∧ a.2 < b.2) then a :: b :: bs
    else b :: lexInsert a bs

/-- Sort by the strict order (score descending, original index ascending):
the spec wording of "sorted by score descending; ties keep the original
record order". -/
def lexSort : List ((Proj × Nat) × Nat) → List ((Proj × Nat) × Nat)
  | [] => []
  | a :: as => lexInsert a (lexSort as)

/-- Attach the original position to every scored match. -/
def withIdx (l : List (Proj × Nat)) : List ((Proj × Nat) × Nat) :=
  l.enum.map (fun x => (x.2, x.1))

/-- Spec-side ranked project search: score every match with the spec
formula, order by score descending with ties in original order, strip to
the bare projects. -/
def specRanked (query : String) (projects : List Proj) : List Proj :=
  let query_lower := lowerS query
  let scored := (projects.filter (projMatches query_lower)).map
    (fun p => (p, specScore query_lower p))
  (lexSort (withIdx scored)).map (fun x => x.1.1)

/-- Every record of every category, tagged, in document order. -/
def allTagged (d : CertData) : List CertHit :=
  d.certificates.coursera.map CertHit.coursera ++
  d.certificates.other.map CertHit.other ++
  d.diplomas.map CertHit.diploma ++
  d.languages.map CertHit.language ++
  d.badges.map CertHit.badge

/-- The designated textual fields of one tagged record, as one predicate:
does the lowercased query occur in any of them (case-insensitively)? -/
def hitMatches (query_lower : String) : CertHit → Bool
  | .coursera c =>
    strIn query_lower (lowerS c.title) || strIn query_lower (lowerS (c.issuer.getD "")) ||
    strIn query_lower (lowerS (c.id.getD ""))
  | .other c =>
    strIn query_lower (lowerS c.title) || strIn query_lower (lowerS (c.issuer.getD ""))
  | .diploma dp => strIn query_lower (lowerS dp.title)
  | .language l => strIn query_lower (lowerS l.title) || strIn query_lower (lowerS l.language)
  | .badge b => strIn query_lower (lowerS b.title) || strIn query_lower (lowerS b.issuer)

/-- Spec-side certificate search: exactly the tagged records whose
designated fields match, in original order. -/
def specCertSearch (d : CertData) (query : String) : List CertHit :=
  (allTagged d).filter (hitMatches (lowerS query))

/-- The coursera category of a document state that is a mapping. -/
def courseraOf : Doc CertData → List Cert
  | .full d => d.certificates.coursera
  | _ => []

/-- The certificate segment the cross-document search contributes: the
matches for a truthy document, nothing for a falsy one (whose search
envelope is an error and has no results key). -/
def certSegOf (cd : Doc CertData) (query : String) : List CertHit :=
  match cd with
  | .full d => specCertSearch d query
  | _ => []

/-- The portfolio segment of the cross-document search, in the ranked order
search_projects actually returns. -/
def northSegOf (nd : Doc NorthData) (query : String) : List Proj :=
  match nd with
  | .full d => specRanked query d.northstar_suite.projects
  | _ => []

/-- Total connections of an interop result, 0 for a raised exception. -/
def interopTotalOf : Except PyErr InteropEnv → Nat
  | .ok e => e.total_connections
  | .error _ => 0

/-! ### Concrete documents used by witnesses and counterexamples -/

def exCoursera : Cert :=
  { id := some "C1", title := "Intro to Python", issuer := some "Coursera" }

def exCertDoc : CertData :=
  { certificates := { coursera := [exCoursera] } }

def exP1 : Proj := { name := "boss data pipeline" }

def exP2 : Proj := { name := "boss agent", mcp_role := "boss orchestrator" }

def exNorth : NorthData := { northstar_suite := { projects := [exP1, exP2] } }

def exSt : St := ⟨Doc.emptyDict, Doc.emptyDict, Doc.emptyDict⟩

def exSt8 : St := ⟨Doc.emptyDict, Doc.emptyDict, Doc.full exNorth⟩

def exQ1 : Proj := { id := some (.s "a"), name := "Pa" }

def exQ2 : Proj := { id := some (.s "a-a"), name := "Pb" }

def exQ3 : Proj := { id := some (.s "a-a-a"), name := "Pc" }

def exNorthCollide : NorthData :=
  { northstar_suite := { projects := [exQ1, exQ2, exQ3] } }

def exR1 : Proj := { id := some (.i 1), name := "Pa" }

def exR2 : Proj := { id := some (.i 2), name := "Pb" }

def exNorthOk : NorthData := { northstar_suite := { projects := [exR1, exR2] } }

def exZeroSkills : ResumeData := { skills := [] }

/-! ### Helper lemmas -/

theorem listInf_nil (l : List Char) : listInf [] l = true := by
  cases l <;> rfl

theorem strIn_empty (s : String) : strIn "" s = true := by
  unfold strIn
  exact listInf_nil _

theorem roundHalfEven_nonneg (q : ℚ) (h : 0 ≤ q) : 0 ≤ roundHalfEven q := by
  have hf : (0 : ℤ) ≤ ⌊q⌋ := Int.floor_nonneg.mpr h
  simp only [roundHalfEven]
  split_ifs <;> omega

theorem round2_nonneg (q : ℚ) (h : 0 ≤ q) : 0 ≤ round2 q := by
  unfold round2
  have h2 : (0 : ℤ) ≤ roundHalfEven (q * 100) :=
    roundHalfEven_nonneg _ (by positivity)
  have h3 : (0 : ℚ) ≤ (roundHalfEven (q * 100) : ℚ) := by exact_mod_cast h2
  exact div_nonneg h3 (by norm_num)

theorem round2_zero : round2 0 = 0 := by
  norm_num [round2, roundHalfEven]

theorem clamp_eq (x : ℚ) : min 100 (max 0 x) = clampQ x := by
  unfold clampQ
  rw [max_min_distrib_left, max_eq_right (by norm_num : (0 : ℚ) ≤ 100)]

theorem pct_code_eq (skills : List String) (jd : String) :
    (if skills.isEmpty then (0 : ℚ)
      else ((skillsMatched skills jd : ℚ) / (skills.length : ℚ)) * 100) =
      specSkillPct skills jd := by
  cases skills with
  | nil => simp [specSkillPct, skillsMatched]
  | cons a l =>
    simp only [List.isEmpty_cons, specSkillPct, List.length_cons, if_neg,
      Bool.false_eq_true, Nat.succ_ne_zero, if_false]
    ring

/-! ### Claim theorems -/

/-- Claim C1: for every job description and every loaded (truthy) resume,
the match score equals the spec formula
`round2 (clamp(skill_match_pct + 10*positive_hits - 15*negative_hits, 0, 100))`
with `skill_match_pct = 100 * matched / len(skills)` (0 on an empty skills
list); with zero skills and zero keyword hits the score is exactly 0; and
the score is never negative. -/
theorem c1_match_score_formula (d : ResumeData) (jd : String) :
    get_match_score (.full d) jd =
      .ok (round2 (clampQ (specSkillPct d.skills jd +
              10 * (posHits jd : ℚ) - 15 * (negHits jd : ℚ))))
        (round2 (specSkillPct d.skills jd)) (posHits jd) (negHits jd)
        (skillsMatched d.skills jd) d.skills.length ∧
    (d.skills = [] → posHits jd = 0 → negHits jd = 0 →
      get_match_score (.full d) jd = .ok 0 0 0 0 0 0) ∧
    0 ≤ round2 (clampQ (specSkillPct d.skills jd +
          10 * (posHits jd : ℚ) - 15 * (negHits jd : ℚ))) := by
  have hbase : get_match_score (.full d) jd =
      .ok (round2 (min 100 (max 0
              ((if d.skills.isEmpty then (0 : ℚ)
                else ((skillsMatched d.skills jd : ℚ) / (d.skills.length : ℚ)) * 100) +
                (posHits jd : ℚ) * 10 - (negHits jd : ℚ) * 15))))
        (round2 (if d.skills.isEmpty then (0 : ℚ)
            else ((skillsMatched d.skills jd : ℚ) / (d.skills.length : ℚ)) * 100))
        (posHits jd) (negHits jd) (skillsMatched d.skills jd) d.skills.length := rfl
  have harg : specSkillPct d.skills jd + (posHits jd : ℚ) * 10 - (negHits jd : ℚ) * 15 =
      specSkillPct d.skills jd + 10 * (posHits jd : ℚ) - 15 * (negHits jd : ℚ) := by ring
  have hmain : get_match_score (.full d) jd =
      .ok (round2 (clampQ (specSkillPct d.skills jd +
              10 * (posHits jd : ℚ) - 15 * (negHits jd : ℚ))))
        (round2 (specSkillPct d.skills jd)) (posHits jd) (negHits jd)
        (skillsMatched d.skills jd) d.skills.length := by
    rw [hbase, pct_code_eq, harg, clamp_eq]
  refine ⟨hmain, ?_, ?_⟩
  · intro h0 hp hn
    rw [hmain, h0, hp, hn]
    have hsm : skillsMatched [] jd = 0 := rfl
    have hpct : specSkillPct [] jd = 0 := by simp [specSkillPct]
    rw [hsm, hpct]
    norm_num [clampQ, round2_zero]
  · exact round2_nonneg _ (le_max_left _ _)

/-- Claim C1 witness: concrete instances of the formula; with no skills and
empty job text the score is exactly 0, and with all four negative keywords
present the clamped score is still 0 (never negative). -/
theorem c1_match_score_formula_witness :
    get_match_score (.full exZeroSkills) "" = .ok 0 0 0 0 0 0 ∧
    get_match_score (.full exZeroSkills) "enterprise terraform snowflake legacy" =
      .ok 0 0 0 4 0 0 ∧
    negHits "enterprise terraform snowflake legacy" = 4 := by
  refine ⟨(c1_match_score_formula exZeroSkills "").2.1 rfl (by decide) (by decide), ?_, by decide⟩
  have h := (c1_match_score_formula exZeroSkills "enterprise terraform snowflake legacy").1
  have hsk : exZeroSkills.skills = [] := rfl
  have hp : posHits "enterprise terraform snowflake legacy" = 0 := by decide
  have hn : negHits "enterprise terraform snowflake legacy" = 4 := by decide
  rw [hsk, hp, hn] at h
  have hpct : specSkillPct [] "enterprise terraform snowflake legacy" = 0 := by
    simp [specSkillPct]
  have hm : skillsMatched [] "enterprise terraform snowflake legacy" = 0 := rfl
  rw [hpct, hm] at h
  norm_num [clampQ, round2_zero] at h
  exact h

/-- Claim C4 (the code side): when the certificates file exists but parses
to None (for example an empty file), the loader stores None and the category
getters raise AttributeError instead of returning an envelope; on the empty
mapping the same getters do return empty envelopes. -/
theorem c4_none_document_raises :
    get_coursera_certificates Doc.pynone = .error .attributeError ∧
    get_diplomas Doc.pynone = .error .attributeError ∧
    get_language_certificates Doc.pynone = .error .attributeError ∧
    get_badges Doc.pynone = .error .attributeError ∧
    get_repository_info Doc.pynone = .error .attributeError ∧
    get_certificate_by_id Doc.pynone (.s "C1") = .error .attributeError ∧
    get_certificates_by_issuer Doc.pynone "Coursera" = .error .attributeError ∧
    get_interop_matrix Doc.pynone = .error .attributeError ∧
    get_coursera_certificates Doc.emptyDict = .ok ⟨[], 0⟩ ∧
    get_diplomas Doc.emptyDict = .ok ⟨[], 0⟩ :=
  ⟨rfl, rfl, rfl, rfl, rfl, rfl, rfl, rfl, rfl, rfl⟩

/-- Claim C6: get_certificate_by_id linearly scans the coursera records,
compares the id field by exact equality, returns the first match as a
success envelope and otherwise a NotFound error envelope; for every document
state that is a mapping it returns normally (never raises). -/
theorem c6_get_by_id (cd : Doc CertData) (h : cd ≠ Doc.pynone) (cert_id : String) :
    get_certificate_by_id cd (.s cert_id) =
      .ok (match (courseraOf cd).find? (fun c => certIdEq c.id (.s cert_id)) with
        | some c => .found c
        | none => .notFound ("Certificate with ID " ++ cert_id ++ " not found")) := by
  have hfind : ∀ l : List Cert, findById (.s cert_id) l =
      (match l.find? (fun c => certIdEq c.id (.s cert_id)) with
        | some c => ByIdEnv.found c
        | none => ByIdEnv.notFound ("Certificate with ID " ++ cert_id ++ " not found")) := by
    intro l
    induction l with
    | nil => rfl
    | cons c rest ih =>
      by_cases hc : certIdEq c.id (.s cert_id)
      · simp [findById, List.find?, hc]
      · simp only [findById, List.find?, hc, if_false, Bool.false_eq_true]
        rw [ih]
  cases cd with
  | pynone => exact absurd rfl h
  | emptyDict =>
    show Except.ok (findById (.s cert_id) []) = _
    rw [hfind]
    rfl
  | full d =>
    show Except.ok (findById (.s cert_id) d.certificates.coursera) = _
    rw [hfind]
    rfl

/-- Claim C6 witness: on a concrete one-record document, an unknown id
yields the NotFound envelope without raising. -/
theorem c6_get_by_id_witness :
    get_certificate_by_id (.full exCertDoc) (.s "nonexistent") =
      .ok (.notFound "Certificate with ID nonexistent not found") := by
  have h := c6_get_by_id (.full exCertDoc) (by simp) "nonexistent"
  rw [h]
  rfl

/-- Claim C7 counterexample: on the empty document the match scorer and the
searches return error envelopes, not empty results with a zero skill match
percentage. -/
theorem c7_counterexample :
    get_match_score Doc.emptyDict "python" = .err "No resume data available" ∧
    get_match_score Doc.emptyDict "python" ≠ .ok 0 0 0 0 0 0 ∧
    search_certificates Doc.emptyDict "python" = .err "No certificate data available" ∧
    search_certificates Doc.emptyDict "python" ≠ .ok "python" [] 0 ∧
    search_projects Doc.emptyDict "python" = .err "No Northstar data available" :=
  ⟨rfl, by decide, rfl, by decide, rfl⟩

/-- Claim C7 (amended): on the absent (empty-mapping) document the category
getters do return empty results with count 0 and none of the operations
raises, but the search operations and the match scorer return status-error
envelopes rather than empty results. -/
theorem c7_empty_document_semantics (q : String) :
    get_coursera_certificates Doc.emptyDict = .ok ⟨[], 0⟩ ∧
    get_diplomas Doc.emptyDict = .ok ⟨[], 0⟩ ∧
    get_language_certificates Doc.emptyDict = .ok ⟨[], 0⟩ ∧
    get_badges Doc.emptyDict = .ok ⟨[], 0⟩ ∧
    get_repository_info Doc.emptyDict = .ok [] ∧
    get_projects Doc.emptyDict = .ok ⟨[], 0⟩ ∧
    get_shared_assets Doc.emptyDict = .ok ⟨[], 0⟩ ∧
    search_certificates Doc.emptyDict q = .err "No certificate data available" ∧
    search_projects Doc.emptyDict q = .err "No Northstar data available" ∧
    get_match_score Doc.emptyDict q = .err "No resume data available" :=
  ⟨rfl, rfl, rfl, rfl, rfl, rfl, rfl, rfl, rfl, rfl⟩

/-- Claim C9: with the document state threaded explicitly, every dispatched
read operation returns the state unchanged, and a second identical call on
the resulting state returns the identical result (idempotence; timestamps,
being wall-clock output, are outside the model). -/
theorem c9_reads_pure (st : St) (endpoint : String)
    (data : Option (List (String × PyScalar))) :
    (runReq st endpoint data).2 = st ∧
    (runReq ((runReq st endpoint data).2) endpoint data).1 = (runReq st endpoint data).1 :=
  ⟨rfl, rfl⟩

/-- The code-side per-category passes of search_certificates produce exactly
the filter of the tagged concatenation by the per-record predicate. -/
theorem certSearch_results_eq_spec (d : CertData) (q : String) :
    courseraHits (lowerS q) d.certificates.coursera ++
      otherHits (lowerS q) d.certificates.other ++
      diplomaHits (lowerS q) d.diplomas ++
      languageHits (lowerS q) d.languages ++
      badgeHits (lowerS q) d.badges = specCertSearch d q := by
  unfold specCertSearch allTagged
  rw [List.filter_append, List.filter_append, List.filter_append, List.filter_append]
  rw [List.filter_map, List.filter_map, List.filter_map, List.filter_map, List.filter_map]
  rfl

theorem search_certificates_eq_spec (d : CertData) (q : String) :
    search_certificates (.full d) q =
      .ok q (specCertSearch d q) (specCertSearch d q).length := by
  have hbase : search_certificates (.full d) q =
      .ok q
        (courseraHits (lowerS q) d.certificates.coursera ++
          otherHits (lowerS q) d.certificates.other ++
          diplomaHits (lowerS q) d.diplomas ++
          languageHits (lowerS q) d.languages ++
          badgeHits (lowerS q) d.badges)
        (courseraHits (lowerS q) d.certificates.coursera ++
          otherHits (lowerS q) d.certificates.other ++
          diplomaHits (lowerS q) d.diplomas ++
          languageHits (lowerS q) d.languages ++
          badgeHits (lowerS q) d.badges).length := rfl
  rw [hbase, certSearch_results_eq_spec]

/-- Claim C3: for every loaded (truthy) certificates document and query,
search_certificates returns exactly the tagged records whose designated
textual fields contain the lowercased query, in original order; the empty
query matches every record of every category; and the concrete one-record
Coursera document yields exactly one coursera-tagged hit for "python". -/
theorem c3_search_certificates (d : CertData) (q : String) :
    search_certificates (.full d) q =
      .ok q (specCertSearch d q) (specCertSearch d q).length ∧
    specCertSearch d "" = allTagged d ∧
    search_certificates (.full exCertDoc) "python" =
      .ok "python" [CertHit.coursera exCoursera] 1 := by
  refine ⟨search_certificates_eq_spec d q, ?_, by decide⟩
  unfold specCertSearch
  have hall : ∀ h : CertHit, hitMatches (lowerS "") h = true := by
    intro h
    have he : lowerS "" = "" := rfl
    rw [he]
    cases h <;> simp [hitMatches, strIn_empty]
  exact List.filter_eq_self.mpr (fun a _ => hall a)

/-- Claim C5 counterexample: malformed argument types do not produce a
parameter-validation error: a non-numeric project id raises ValueError out
of the dispatcher, and an integer certificate id silently falls through to a
NotFound envelope. -/
theorem c5_counterexample :
    handle_request exSt "/northstar/project" (some [("id", PyScalar.s "abc")]) =
      .error .valueError ∧
    handle_request exSt "/certificates/id" (some [("id", PyScalar.i 5)]) =
      .ok (.certById (.notFound "Certificate with ID 5 not found")) := by
  exact ⟨by decide, by decide⟩

/-- Claim C5 (amended): the dispatcher returns the Unknown endpoint error
envelope for every identifier outside its namespace; a missing required
parameter yields the parameter-validation error envelope before any lookup
(the result does not depend on the document state); and for well-typed
arguments every known endpoint delegates to exactly one accessor or
aggregator call, returning its result unchanged.  Malformed argument types
are not validated (see the counterexample). -/
theorem c5_dispatcher (st : St) (data : Option (List (String × PyScalar))) :
    (∀ e, e ∉ knownEndpoints → handle_request st e data = .ok (.errMsg "Unknown endpoint")) ∧
    (bagGet data "job_description" = none →
      handle_request st "/match" data = .ok (.errMsg "job_description required")) ∧
    (bagGet data "query" = none →
      handle_request st "/certificates/search" data = .ok (.errMsg "query required")) ∧
    (bagGet data "id" = none →
      handle_request st "/certificates/id" data = .ok (.errMsg "id required")) ∧
    (bagGet data "issuer" = none →
      handle_request st "/certificates/issuer" data = .ok (.errMsg "issuer required")) ∧
    (bagGet data "id" = none →
      handle_request st "/northstar/project" data = .ok (.errMsg "project id required")) ∧
    (bagGet data "query" = none →
      handle_request st "/northstar/search" data = .ok (.errMsg "query required")) ∧
    (bagGet data "query" = none →
      handle_request st "/search" data = .ok (.errMsg "query required")) ∧
    handle_request st "/resume" data = .ok (.resumeE (get_resume st.resume)) ∧
    (∀ jd, bagGet data "job_description" = some (.s jd) →
      handle_request st "/match" data = .ok (.matchE (get_match_score st.resume jd))) ∧
    handle_request st "/certificates" data = .ok (.certAll (get_all_certificates st.certs)) ∧
    handle_request st "/certificates/coursera" data = (get_coursera_certificates st.certs).map .certList ∧
    handle_request st "/certificates/diplomas" data = (get_diplomas st.certs).map .diplomaList ∧
    handle_request st "/certificates/languages" data = (get_language_certificates st.certs).map .langList ∧
    handle_request st "/certificates/badges" data = (get_badges st.certs).map .badgeList ∧
    handle_request st "/certificates/repo" data = (get_repository_info st.certs).map .repo ∧
    (∀ q, bagGet data "query" = some (.s q) →
      handle_request st "/certificates/search" data = .ok (.certSearch (search_certificates st.certs q))) ∧
    (∀ v, bagGet data "id" = some v →
      handle_request st "/certificates/id" data = (get_certificate_by_id st.certs v).map .certById) ∧
    (∀ iss, bagGet data "issuer" = some (.s iss) →
      handle_request st "/certificates/issuer" data = (get_certificates_by_issuer st.certs iss).map .certByIssuer) ∧
    handle_request st "/northstar" data = .ok (.nsSuite (get_northstar_suite st.north)) ∧
    handle_request st "/northstar/projects" data = (get_projects st.north).map .projList ∧
    (∀ n, bagGet data "id" = some (.i n) →
      handle_request st "/northstar/project" data = (get_project_by_id st.north n).map .nsProject) ∧
    handle_request st "/northstar/assets" data = (get_shared_assets st.north).map .assets ∧
    handle_request st "/northstar/ai-plan" data = (get_ai_agent_plan st.north).map .aiPlan ∧
    handle_request st "/northstar/stack" data = (get_stack_summary st.north).map .stackE ∧
    handle_request st "/northstar/roadmap" data = (get_project_roadmap st.north).map .roadmap ∧
    (∀ q, bagGet data "query" = some (.s q) →
      handle_request st "/northstar/search" data = .ok (.nsSearch (search_projects st.north q))) ∧
    handle_request st "/northstar/interop" data = (get_interop_matrix st.north).map .interop ∧
    handle_request st "/all" data = .ok (.allData (get_all_data st)) ∧
    handle_request st "/profile" data = .ok (.profile (get_profile_summary st)) ∧
    (∀ q, bagGet data "query" = some (.s q) →
      handle_request st "/search" data = .ok (.searchAllE (search_all st q))) := by
  refine ⟨?_, ?_, ?_, ?_, ?_, ?_, ?_, ?_, rfl, ?_, rfl, rfl, rfl, rfl, rfl, rfl,
    ?_, ?_, ?_, rfl, rfl, ?_, rfl, rfl, rfl, rfl, ?_, rfl, rfl, rfl, ?_⟩
  · intro e he
    simp only [knownEndpoints, List.mem_cons, List.not_mem_nil, or_false, not_or] at he
    obtain ⟨h1, h2, h3, h4, h5, h6, h7, h8, h9, h10, h11, h12, h13, h14, h15, h16,
      h17, h18, h19, h20, h21, h22, h23⟩ := he
    simp [handle_request, h1, h2, h3, h4, h5, h6, h7, h8, h9, h10, h11, h12, h13,
      h14, h15, h16, h17, h18, h19, h20, h21, h22, h23]
  · intro h
    simp [handle_request, h]
  · intro h
    simp [handle_request, h]
  · intro h
    simp [handle_request, h]
  · intro h
    simp [handle_request, h]
  · intro h
    simp [handle_request, h]
  · intro h
    simp [handle_request, h]
  · intro h
    simp [handle_request, h]
  · intro jd h
    simp [handle_request, h]
  · intro q h
    simp [handle_request, h]
  · intro v h
    simp [handle_request, h]
  · intro iss h
    simp [handle_request, h]
  · intro n h
    simp only [handle_request, h]
    simp [pyInt, Except.map, Except.bind, bind]
  · intro q h
    simp [handle_request, h]
  · intro q h
    simp [handle_request, h]

/-- Claim C5 witness: the unknown-endpoint and missing-parameter contracts
at concrete inputs. -/
theorem c5_dispatcher_witness :
    handle_request exSt "/bogus" none = .ok (.errMsg "Unknown endpoint") ∧
    handle_request exSt "/match" none = .ok (.errMsg "job_description required") :=
  ⟨(c5_dispatcher exSt none).1 "/bogus" (by decide),
    (c5_dispatcher exSt none).2.1 rfl⟩

/-- The incremental score accumulation equals the spec sum of weighted
indicators. -/
theorem scoreOf_eq_spec (ql : String) (p : Proj) : scoreOf ql p = specScore ql p := by
  unfold scoreOf specScore
  by_cases h1 : strIn ql (lowerS p.name) = true <;>
    by_cases h2 : strIn ql (lowerS p.purpose) = true <;>
      by_cases h3 : (p.stack.any fun tech => strIn ql (lowerS tech)) = true <;>
        by_cases h4 : strIn ql (lowerS p.mcp_role) = true <;>
          simp [h1, h2, h3, h4]

theorem lexInsert_perm (a : (Proj × Nat) × Nat) (l : List ((Proj × Nat) × Nat)) :
    (lexInsert a l).Perm (a :: l) := by
  induction l with
  | nil => exact List.Perm.refl _
  | cons b bs ih =>
    unfold lexInsert
    split_ifs with h
    · exact List.Perm.refl _
    · exact ((ih.cons b).trans (List.Perm.swap a b bs))

theorem lexSort_perm (l : List ((Proj × Nat) × Nat)) : (lexSort l).Perm l := by
  induction l with
  | nil => exact List.Perm.refl _
  | cons a as ih =>
    unfold lexSort
    exact (lexInsert_perm a (lexSort as)).trans (ih.cons a)

/-- Stripping the original index from a lex insertion gives the stable
descending insertion, provided the inserted element carries a smaller index
than everything in the list. -/
theorem lexInsert_strip (a : (Proj × Nat) × Nat) (l : List ((Proj × Nat) × Nat))
    (h : ∀ b ∈ l, a.2 < b.2) :
    (lexInsert a l).map Prod.fst = insertDesc a.1 (l.map Prod.fst) := by
  induction l with
  | nil => rfl
  | cons b bs ih =>
    have hb : a.2 < b.2 := h b (List.mem_cons_self b bs)
    by_cases hc : b.1.2 ≤ a.1.2
    · have hcond : b.1.2 < a.1.2 ∨ (a.1.2 = b.1.2 ∧ a.2 < b.2) := by
        rcases lt_or_eq_of_le hc with h2 | h2
        · exact Or.inl h2
        · exact Or.inr ⟨h2.symm, hb⟩
      simp only [lexInsert, if_pos hcond, List.map_cons, insertDesc, if_pos hc]
    · have hcond : ¬(b.1.2 < a.1.2 ∨ (a.1.2 = b.1.2 ∧ a.2 < b.2)) := by
        rintro (h2 | ⟨h2, _⟩)
        · exact hc (le_of_lt h2)
        · exact hc (le_of_eq h2.symm)
      simp only [lexInsert, if_neg hcond, List.map_cons, insertDesc, if_neg hc]
      rw [ih (fun x hx => h x (List.mem_cons_of_mem b hx))]

theorem lexSort_strip (l : List ((Proj × Nat) × Nat))
    (h : l.Pairwise (fun a b => a.2 < b.2)) :
    (lexSort l).map Prod.fst = sortDesc (l.map Prod.fst) := by
  induction l with
  | nil => rfl
  | cons a as ih =>
    rw [List.pairwise_cons] at h
    have h3 : ∀ b ∈ lexSort as, a.2 < b.2 := fun b hb =>
      h.1 b ((lexSort_perm as).mem_iff.mp hb)
    show (lexInsert a (lexSort as)).map Prod.fst = sortDesc (a.1 :: as.map Prod.fst)
    rw [lexInsert_strip a _ h3, ih h.2]
    rfl

theorem mem_enumFrom_le (x : Nat × (Proj × Nat)) :
    ∀ (l : List (Proj × Nat)) (k : Nat), x ∈ l.enumFrom k → k ≤ x.1 := by
  intro l
  induction l with
  | nil => intro k hx; cases hx
  | cons b bs ih =>
    intro k hx
    rcases List.mem_cons.mp hx with h | h
    · rw [h]
    · exact Nat.le_of_lt (Nat.lt_of_lt_of_le (Nat.lt_succ_self k) (ih (k + 1) h))

theorem enumFrom_pairwise (l : List (Proj × Nat)) :
    ∀ k, (l.enumFrom k).Pairwise (fun a b => a.1 < b.1) := by
  induction l with
  | nil => intro k; exact List.Pairwise.nil
  | cons b bs ih =>
    intro k
    refine List.pairwise_cons.mpr ⟨?_, ih (k + 1)⟩
    intro y hy
    exact Nat.lt_of_lt_of_le (Nat.lt_succ_self k) (mem_enumFrom_le y bs (k + 1) hy)

theorem withIdx_pairwise (l : List (Proj × Nat)) :
    (withIdx l).Pairwise (fun a b => a.2 < b.2) := by
  unfold withIdx
  have h := enumFrom_pairwise l 0
  exact List.Pairwise.map _ (fun a b hab => hab) h

theorem withIdx_strip (l : List (Proj × Nat)) : (withIdx l).map Prod.fst = l := by
  unfold withIdx
  rw [List.map_map]
  
  exact List.enum_map_snd l

/-- The spec-side ranked search equals the code-side stable descending sort
of the scored matches. -/
theorem specRanked_eq (q : String) (ps : List Proj) :
    specRanked q ps =
      (sortDesc ((ps.filter (projMatches (lowerS q))).map
        (fun p => (p, scoreOf (lowerS q) p)))).map Prod.fst := by
  simp only [specRanked]
  have hs : (ps.filter (projMatches (lowerS q))).map (fun p => (p, specScore (lowerS q) p)) =
      (ps.filter (projMatches (lowerS q))).map (fun p => (p, scoreOf (lowerS q) p)) := by
    refine List.map_congr_left ?_
    intro p _
    rw [scoreOf_eq_spec]
  rw [hs]
  have hmm : ((lexSort (withIdx ((ps.filter (projMatches (lowerS q))).map
      (fun p => (p, scoreOf (lowerS q) p))))).map (fun x => x.1.1)) =
      ((lexSort (withIdx ((ps.filter (projMatches (lowerS q))).map
        (fun p => (p, scoreOf (lowerS q) p))))).map Prod.fst).map Prod.fst := by
    rw [List.map_map]
    rfl
  rw [hmm, lexSort_strip _ (withIdx_pairwise _), withIdx_strip]

/-- Claim C2: search_projects assigns every matching project the relevance
score 10*[name] + 5*[purpose] + 3*[stack] + 7*[role] (case-insensitive
substring tests) and returns the matches sorted by score descending with
ties in original record order; in particular a name-and-role match (17)
sorts before a name-only match (10). -/
theorem c2_search_projects (nd : NorthData) (q : String) :
    search_projects (.full nd) q =
      .ok q (specRanked q nd.northstar_suite.projects)
        (specRanked q nd.northstar_suite.projects).length ∧
    scoreOf (lowerS "boss") exP1 = 10 ∧
    scoreOf (lowerS "boss") exP2 = 17 ∧
    search_projects (.full exNorth) "boss" = .ok "boss" [exP2, exP1] 2 := by
  refine ⟨?_, by decide, by decide, by decide⟩
  have hbase : search_projects (.full nd) q =
      .ok q
        ((sortDesc ((nd.northstar_suite.projects.filter (projMatches (lowerS q))).map
          (fun p => (p, scoreOf (lowerS q) p)))).map Prod.fst)
        (sortDesc ((nd.northstar_suite.projects.filter (projMatches (lowerS q))).map
          (fun p => (p, scoreOf (lowerS q) p)))).length := rfl
  rw [hbase, specRanked_eq]
  have hlen : (sortDesc ((nd.northstar_suite.projects.filter (projMatches (lowerS q))).map
      (fun p => (p, scoreOf (lowerS q) p)))).length =
      ((sortDesc ((nd.northstar_suite.projects.filter (projMatches (lowerS q))).map
        (fun p => (p, scoreOf (lowerS q) p)))).map Prod.fst).length := by
    rw [List.length_map]
  rw [hlen]

/-- Claim C8 counterexample: the portfolio hits inside search_all come back
in the ranked order of search_projects, not in the unscored original record
order. -/
theorem c8_counterexample :
    (search_all exSt8 "boss").results = [URes.northstar exP2, URes.northstar exP1] ∧
    exNorth.northstar_suite.projects.filter (projMatches (lowerS "boss")) = [exP1, exP2] ∧
    (search_all exSt8 "boss").results ≠
      (exNorth.northstar_suite.projects.filter (projMatches (lowerS "boss"))).map
        URes.northstar :=
  ⟨by decide, by decide, by decide⟩

/-- Claim C8 (amended): search_all concatenates (a) one resume entry exactly
when the lowercased query occurs in the serialized resume, (b) all
certificate search hits, (c) all portfolio search hits in the ranked order
search_projects returns, each uniformly tagged, with count equal to the
number of results; a falsy document contributes an empty segment. -/
theorem c8_search_all (st : St) (q : String) :
    (search_all st q).query = q ∧
    (search_all st q).results =
      (if strIn (lowerS q) (lowerS (dumpsResume st.resume)) then [URes.resumeMatched] else []) ++
        (certSegOf st.certs q).map URes.certHit ++
        (northSegOf st.north q).map URes.northstar ∧
    (search_all st q).count = (search_all st q).results.length := by
  refine ⟨rfl, ?_, rfl⟩
  have hc : (search_certificates st.certs q).resultsOrEmpty = certSegOf st.certs q := by
    cases st.certs with
    | pynone => rfl
    | emptyDict => rfl
    | full d =>
      show (search_certificates (.full d) q).resultsOrEmpty = specCertSearch d q
      rw [search_certificates_eq_spec]
      rfl
  have hn : (search_projects st.north q).resultsOrEmpty = northSegOf st.north q := by
    cases st.north with
    | pynone => rfl
    | emptyDict => rfl
    | full d => exact (specRanked_eq q d.northstar_suite.projects).symm
  show (if strIn (lowerS q) (lowerS (dumpsResume st.resume)) then [URes.resumeMatched] else []) ++
      ((search_certificates st.certs q).resultsOrEmpty).map URes.certHit ++
      ((search_projects st.north q).resultsOrEmpty).map URes.northstar = _
  rw [hc, hn]

/-- A fresh key appends at the end of an insertion-ordered dict. -/
theorem dictInsert_append (k : String) (v : InteropEntry)
    (m : List (String × InteropEntry)) (h : ∀ kv ∈ m, kv.1 ≠ k) :
    dictInsert k v m = m ++ [(k, v)] := by
  induction m with
  | nil => rfl
  | cons b bs ih =>
    have hb : b.1 ≠ k := h b (List.mem_cons_self b bs)
    simp only [dictInsert, if_neg hb, List.cons_append]
    rw [ih (fun kv hkv => h kv (List.mem_cons_of_mem b hkv))]

/-- Writing pairwise-distinct keys into a dict keeps them all, in order. -/
theorem foldl_dictInsert_eq (l : List (String × InteropEntry)) :
    ∀ acc : List (String × InteropEntry),
      (acc.map Prod.fst ++ l.map Prod.fst).Nodup →
      l.foldl (fun m kv => dictInsert kv.1 kv.2 m) acc = acc ++ l := by
  induction l with
  | nil => intro acc _; simp
  | cons kv rest ih =>
    intro acc h
    have hsplit := List.nodup_append.mp h
    have hfresh : ∀ x ∈ acc, x.1 ≠ kv.1 := by
      intro x hx
      have hmem : x.1 ∈ acc.map Prod.fst := List.mem_map_of_mem Prod.fst hx
      have hdisj := hsplit.2.2 hmem
      intro hxk
      exact hdisj (by rw [hxk]; exact List.mem_cons_self _ _)
    have hre : (acc.map Prod.fst ++ (kv :: rest).map Prod.fst) =
        ((acc ++ [kv]).map Prod.fst ++ rest.map Prod.fst) := by
      simp
    rw [List.foldl_cons, dictInsert_append kv.1 kv.2 acc hfresh,
      ih (acc ++ [kv]) (by rw [← hre]; exact h)]
    simp

/-- Inner pass of the matrix generation: the filterMap keeps as many
entries as there are indices at least i. -/
theorem length_filterMap_if (i : Nat) (g : Nat × Proj → String × InteropEntry) :
    ∀ l : List (Nat × Proj),
      (l.filterMap (fun x => if i ≤ x.1 then some (g x) else none)).length =
      (l.filter (fun x => i ≤ x.1)).length := by
  intro l
  induction l with
  | nil => rfl
  | cons x xs ih =>
    by_cases hx : i ≤ x.1 <;>
      simp [List.filterMap_cons, List.filter_cons, hx, ih]

/-- Counting the indices at least i in an index-decorated list. -/
theorem enumFrom_count_ge (i : Nat) :
    ∀ (l : List Proj) (k : Nat),
      ((l.enumFrom k).filter (fun x => i ≤ x.1)).length = (k + l.length) - max i k := by
  intro l
  induction l with
  | nil =>
    intro k
    simp [Nat.sub_eq_zero_of_le (Nat.le_max_right i k)]
  | cons x xs ih =>
    intro k
    by_cases hk : i ≤ k
    · have hmax : max i k = k := Nat.max_eq_right hk
      have hmax1 : max i (k + 1) = k + 1 := Nat.max_eq_right (Nat.le_succ_of_le hk)
      simp only [List.enumFrom_cons, List.filter_cons, decide_eq_true_eq, hk, if_true,
        List.length_cons, ih (k + 1), hmax1, hmax]
      omega
    · have hk2 : k < i := Nat.lt_of_not_le hk
      have hmax : max i k = i := Nat.max_eq_left (Nat.le_of_lt hk2)
      have hmax1 : max i (k + 1) = i := Nat.max_eq_left hk2
      simp only [List.enumFrom_cons, List.filter_cons, decide_eq_true_eq, hk, if_false,
        ih (k + 1), hmax1, hmax, List.length_cons]
      omega

theorem sum_map_succ_of_lt (n : Nat) :
    ∀ l : List Nat, (∀ i ∈ l, i < n) →
      (l.map (fun i => n + 1 - i)).sum = (l.map (fun i => n - i)).sum + l.length := by
  intro l
  induction l with
  | nil => intro _; simp
  | cons x xs ih =>
    intro h
    have hx : x < n := h x (List.mem_cons_self x xs)
    simp only [List.map_cons, List.sum_cons, List.length_cons,
      ih (fun i hi => h i (List.mem_cons_of_mem x hi))]
    omega

theorem two_mul_sum_range_sub (n : Nat) :
    2 * ((List.range n).map (fun i => n - i)).sum = n * (n + 1) := by
  induction n with
  | zero => rfl
  | succ n ih =>
    rw [List.range_succ, List.map_append, List.sum_append]
    rw [sum_map_succ_of_lt n (List.range n) (fun i hi => List.mem_range.mp hi)]
    have hring : (n + 1) * (n + 1 + 1) = n * (n + 1) + 2 * (n + 1) := by ring
    simp only [List.map_cons, List.map_nil, List.sum_cons, List.sum_nil, List.length_range]
    have hlast : n + 1 - n = 1 := by omega
    rw [hlast]
    linarith [ih, hring]

theorem sum_range_sub (n : Nat) :
    ((List.range n).map (fun i => n - i)).sum = n * (n + 1) / 2 := by
  have h := two_mul_sum_range_sub n
  have h2 : n * (n + 1) = ((List.range n).map (fun i => n - i)).sum * 2 := by linarith
  exact (Nat.div_eq_of_eq_mul_left (by norm_num) h2).symm

theorem pairEntries_length (ps : List Proj) (sa : List PyDict) :
    (pairEntries ps sa).length = ps.length * (ps.length + 1) / 2 := by
  unfold pairEntries
  rw [List.length_flatMap]
  simp only [Function.comp_def]
  have hinner : ∀ ip1 ∈ ps.enum,
      ((ps.enum.filterMap (fun ip2 =>
        if ip1.1 ≤ ip2.1 then
          some (interopKey ip1.2 ip2.2,
            InteropEntry.mk ip1.2.name ip2.2.name sa
              (if ip1.1 = ip2.1 then "direct" else "via_shared_assets"))
        else none)).length) = ps.length - ip1.1 := by
    intro ip1 _
    rw [length_filterMap_if ip1.1 _ ps.enum]
    have henum : ((ps.enumFrom 0).filter (fun x => ip1.1 ≤ x.1)).length =
        (0 + ps.length) - max ip1.1 0 := enumFrom_count_ge ip1.1 ps 0
    rw [show ps.enum = ps.enumFrom 0 from rfl, henum]
    omega
  rw [List.map_congr_left hinner]
  have hmap : ps.enum.map (fun a => ps.length - a.1) =
      (List.range ps.length).map (fun i => ps.length - i) := by
    rw [← List.enum_map_fst ps, List.map_map]
    rfl
  rw [hmap, sum_range_sub]

theorem pairEntries_mem (ps : List Proj) (sa : List PyDict) (i j : Nat)
    (hi : i < ps.length) (hj : j < ps.length) (hij : i ≤ j) :
    (interopKey ps[i] ps[j],
      InteropEntry.mk (ps[i]).name (ps[j]).name sa
        (if i = j then "direct" else "via_shared_assets")) ∈ pairEntries ps sa := by
  unfold pairEntries
  rw [List.mem_flatMap]
  have hi2 : i < ps.enum.length := by rw [List.enum_length]; exact hi
  have hj2 : j < ps.enum.length := by rw [List.enum_length]; exact hj
  refine ⟨(i, ps[i]), ?_, ?_⟩
  · rw [← List.getElem_enum ps i hi2]
    exact List.getElem_mem hi2
  · rw [List.mem_filterMap]
    refine ⟨(j, ps[j]), ?_, ?_⟩
    · rw [← List.getElem_enum ps j hj2]
      exact List.getElem_mem hj2
    · rw [if_pos hij]

/-- Claim C10 counterexample: three projects with pairwise distinct ids
"a", "a-a", "a-a-a" produce only 5 matrix entries instead of
3*(3+1)/2 = 6, because the keys "a"+"-"+"a-a-a" and "a-a"+"-"+"a-a"
coincide and the dict overwrites one cell. -/
theorem c10_counterexample :
    (exNorthCollide.northstar_suite.projects.map Proj.id).Nodup ∧
    exNorthCollide.northstar_suite.projects.length = 3 ∧
    interopTotalOf (get_interop_matrix (.full exNorthCollide)) = 5 ∧
    5 ≠ 3 * (3 + 1) / 2 :=
  ⟨by decide, by decide, by decide, by decide⟩

/-- Claim C10 (amended): whenever the generated pair keys are pairwise
distinct (in particular for hyphen-free distinct ids), the interop matrix
keeps every generated cell: it has exactly n*(n+1)/2 entries,
total_connections equals the number of entries, and the cell of a pair
(i, j) with i at most j carries connection_type direct exactly on the
diagonal and via_shared_assets off it. -/
theorem c10_interop_matrix (nd : NorthData)
    (hkeys : ((pairEntries nd.northstar_suite.projects
        nd.northstar_suite.shared_assets).map Prod.fst).Nodup) :
    get_interop_matrix (.full nd) =
      .ok ⟨pairEntries nd.northstar_suite.projects nd.northstar_suite.shared_assets,
        nd.northstar_suite.shared_assets,
        (pairEntries nd.northstar_suite.projects nd.northstar_suite.shared_assets).length⟩ ∧
    (pairEntries nd.northstar_suite.projects nd.northstar_suite.shared_assets).length =
      nd.northstar_suite.projects.length * (nd.northstar_suite.projects.length + 1) / 2 ∧
    (∀ i j (hi : i < nd.northstar_suite.projects.length)
        (hj : j < nd.northstar_suite.projects.length), i ≤ j →
      (interopKey nd.northstar_suite.projects[i] nd.northstar_suite.projects[j],
        InteropEntry.mk (nd.northstar_suite.projects[i]).name
          (nd.northstar_suite.projects[j]).name nd.northstar_suite.shared_assets
          (if i = j then "direct" else "via_shared_assets")) ∈
        pairEntries nd.northstar_suite.projects nd.northstar_suite.shared_assets) := by
  refine ⟨?_, pairEntries_length _ _, ?_⟩
  · have hfold : (pairEntries nd.northstar_suite.projects
        nd.northstar_suite.shared_assets).foldl (fun m kv => dictInsert kv.1 kv.2 m) [] =
        [] ++ pairEntries nd.northstar_suite.projects nd.northstar_suite.shared_assets := by
      refine foldl_dictInsert_eq _ [] ?_
      simpa using hkeys
    have hbase : get_interop_matrix (.full nd) =
        .ok (InteropEnv.mk
          ((pairEntries nd.northstar_suite.projects
            nd.northstar_suite.shared_assets).foldl (fun m kv => dictInsert kv.1 kv.2 m) [])
          nd.northstar_suite.shared_assets
          (((pairEntries nd.northstar_suite.projects
            nd.northstar_suite.shared_assets).foldl (fun m kv => dictInsert kv.1 kv.2 m) []).length)) := rfl
    rw [hbase, hfold]
    rfl
  · intro i j hi hj hij
    exact pairEntries_mem _ _ i j hi hj hij

/-- Claim C10 witness: a two-project document with integer ids 1 and 2 has
distinct keys, three matrix cells and total 2*(2+1)/2 = 3. -/
theorem c10_interop_matrix_witness :
    ((pairEntries exNorthOk.northstar_suite.projects
        exNorthOk.northstar_suite.shared_assets).map Prod.fst).Nodup ∧
    get_interop_matrix (.full exNorthOk) =
      .ok ⟨pairEntries exNorthOk.northstar_suite.projects
          exNorthOk.northstar_suite.shared_assets,
        exNorthOk.northstar_suite.shared_assets,
        (pairEntries exNorthOk.northstar_suite.projects
          exNorthOk.northstar_suite.shared_assets).length⟩ ∧
    (pairEntries exNorthOk.northstar_suite.projects
        exNorthOk.northstar_suite.shared_assets).length =
      exNorthOk.northstar_suite.projects.length *
        (exNorthOk.northstar_suite.projects.length + 1) / 2 :=
  ⟨by decide, (c10_interop_matrix exNorthOk (by decide)).1,
    (c10_interop_matrix exNorthOk (by decide)).2.1⟩
